import Mathlib

/-!
Verification of the face recognition service (`app.py`): the model cache,
the recognition pipeline `reconocer`, and the nearest-neighbour match
engine `reconocer_persona`.

The pixel contents of images are never inspected by the code under
verification (they are only handed to the opaque detector and embedder
capabilities), so images are modelled by their shape (height, width,
pixel format).  Embeddings are real vectors, distances are Euclidean
norms, and Python's `float("inf")` is modelled by `⊤ : WithTop ℝ`.
-/

namespace FaceApp

/-- Pixel-array format: either a 2-D grayscale array (`arr.ndim == 2`) or a
3-D array with a channel axis of the given size (`arr.shape[2] = c`). -/
inductive PixFmt
  | gray2d : PixFmt
  | chans : ℕ → PixFmt
deriving DecidableEq, Repr

/-- A pixel array, tracked by shape only: the core never reads pixel values,
it passes the array to the opaque detector / embedder capabilities. -/
structure Img where
  height : ℕ
  width : ℕ
  fmt : PixFmt
deriving DecidableEq, Repr

/-- A detection bounding box `cara["box"] = (x, y, w, h)` as emitted by the
detector: integers, the origin may be negative. -/
structure Box where
  x : ℤ
  y : ℤ
  w : ℤ
  h : ℤ
deriving DecidableEq, Repr

/-- An embedding vector. -/
abbrev Emb := List ℝ

/-- The embedding database: an insertion-ordered map from identity label to
its list of reference embeddings (`base_datos.items()` iterates pairs in
insertion order). -/
abbrev Db := List (String × List Emb)

/-- The detector capability, `detector.detect_faces`. -/
abbrev Detector := Img → List Box

/-- The embedder capability, `embedder.embeddings`; `none` models a raised
exception. -/
abbrev Embedder := Img → Option Emb

/-- One entry appended to `resultados`. -/
structure Resultado where
  nombre : String
  distancia : WithTop ℝ
  bbox : ℤ × ℤ × ℤ × ℤ

/-- numpy vector subtraction `a - b`, componentwise. -/
def vsub (a b : List ℝ) : List ℝ := (a.zip b).map fun p => p.1 - p.2

/-- `numpy.linalg.norm`: the Euclidean norm of a vector. -/
noncomputable def l2norm (v : List ℝ) : ℝ := Real.sqrt ((v.map fun t => t ^ 2).sum)

/-- `norm(embedding - emb_base)`: Euclidean distance between two vectors. -/
noncomputable def dist (a b : List ℝ) : ℝ := l2norm (vsub a b)

/-- Python slice-endpoint normalization for an axis of size `n` (negative
endpoints count from the end and clamp at `0`; non-negative ones clamp
at `n`). -/
def pyIdx (n : ℕ) (i : ℤ) : ℕ := if i < 0 then ((n : ℤ) + i).toNat else min i.toNat n

/-- Length of the Python slice `[a:b]` on an axis of size `n`. -/
def sliceLen (n : ℕ) (a b : ℤ) : ℕ := pyIdx n b - pyIdx n a

/-- The numpy crop `arr[y:y2, x:x2]`. -/
def cropImg (arr : Img) (y y2 x x2 : ℤ) : Img :=
  ⟨sliceLen arr.height y y2, sliceLen arr.width x x2, arr.fmt⟩

/-- The channel normalization at the top of `reconocer_persona`:
`GRAY2RGB` when `ndim == 2`, `RGBA2RGB` when `shape[2] == 4`. -/
def ensureRGB (img : Img) : Img :=
  match img.fmt with
  | .gray2d => ⟨img.height, img.width, .chans 3⟩
  | .chans c => if c = 4 then ⟨img.height, img.width, .chans 3⟩ else img

/-- `cv2.resize(img_array, (160, 160))`: raises on an empty source array,
modelled by `none`. -/
def resize160 (img : Img) : Option Img :=
  if img.height = 0 ∨ img.width = 0 then none else some ⟨160, 160, img.fmt⟩

/-- One iteration of the matching loop of `reconocer_persona`: the candidate
replaces the running best iff `d < distancia_minima and d < umbral`. -/
noncomputable def stepCand (umbral : ℝ) (acc : String × WithTop ℝ) (c : String × ℝ) :
    String × WithTop ℝ :=
  if (c.2 : WithTop ℝ) < acc.2 ∧ c.2 < umbral then (c.1, (c.2 : WithTop ℝ)) else acc

/-- The nearest-neighbour scan of `reconocer_persona`: iterate over all
identities and all their reference embeddings, starting from
`("Desconocido", float("inf"))`. -/
noncomputable def matchDb (embedding : Emb) (base_datos : Db) (umbral : ℝ) :
    String × WithTop ℝ :=
  base_datos.foldl
    (fun acc par =>
      par.2.foldl (fun a emb_base => stepCand umbral a (par.1, dist embedding emb_base)) acc)
    ("Desconocido", (⊤ : WithTop ℝ))

/-- The resize → embed → match tail of `reconocer_persona`, with the
surrounding `try/except` (which yields `("Error", float("inf"))`) folded in. -/
noncomputable def embedAndMatch (img : Img) (embedder : Embedder) (base_datos : Db)
    (umbral : ℝ) : String × WithTop ℝ :=
  match resize160 img with
  | none => ("Error", (⊤ : WithTop ℝ))
  | some face_resized =>
    match embedder face_resized with
    | none => ("Error", (⊤ : WithTop ℝ))
    | some embedding => matchDb embedding base_datos umbral

/-- `reconocer_persona`: normalize channels, resize, embed, match; any
failure inside the body is caught and mapped to `("Error", float("inf"))`. -/
noncomputable def reconocer_persona (img_array : Img) (embedder : Embedder)
    (base_datos : Db) (umbral : ℝ) : String × WithTop ℝ :=
  embedAndMatch (ensureRGB img_array) embedder base_datos umbral

/-- `x, y = max(0, x), max(0, y)`: the clamped box origin. -/
def clipX (cara : Box) : ℤ := max 0 cara.x

/-- The clamped box origin, vertical coordinate. -/
def clipY (cara : Box) : ℤ := max 0 cara.y

/-- `x2 = min(arr.shape[1], x + w)` computed from the clamped origin. -/
def clipX2 (arr : Img) (cara : Box) : ℤ := min (arr.width : ℤ) (clipX cara + cara.w)

/-- `y2 = min(arr.shape[0], y + h)` computed from the clamped origin. -/
def clipY2 (arr : Img) (cara : Box) : ℤ := min (arr.height : ℤ) (clipY cara + cara.h)

/-- `face_img = arr[y:y2, x:x2]`, the cropped face region. -/
def faceCrop (arr : Img) (cara : Box) : Img :=
  cropImg arr (clipY cara) (clipY2 arr cara) (clipX cara) (clipX2 arr cara)

/-- The body of the `for cara in detecciones` loop of `reconocer`: recognize
the cropped face and report `[int(x), int(y), int(w), int(h)]` — the clamped
origin together with the detector's raw width and height. -/
noncomputable def perFace (arr : Img) (embedder : Embedder) (base_datos : Db)
    (cara : Box) : Resultado :=
  { nombre := (reconocer_persona (faceCrop arr cara) embedder base_datos 0.8).1,
    distancia := (reconocer_persona (faceCrop arr cara) embedder base_datos 0.8).2,
    bbox := (clipX cara, clipY cara, cara.w, cara.h) }

/-- The detection and per-face section of `reconocer`: one result is appended
for every detection, in the detector's emission order. -/
noncomputable def reconocer_core (detector : Detector) (embedder : Embedder)
    (base_datos : Db) (arr : Img) : List Resultado :=
  (detector arr).map (perFace arr embedder base_datos)

/-- The matching loop, reformulated over the flattened candidate list. -/
noncomputable def runBest (umbral : ℝ) (acc : String × WithTop ℝ)
    (L : List (String × ℝ)) : String × WithTop ℝ :=
  L.foldl (stepCand umbral) acc

/-- The flattened list of (label, distance) candidates, in the iteration
order of the nested loops of `reconocer_persona`. -/
noncomputable def candidates (embedding : Emb) (base_datos : Db) : List (String × ℝ) :=
  base_datos.flatMap fun par => par.2.map fun emb_base => (par.1, dist embedding emb_base)

/-- The crop → normalize → resize → embed prefix of per-face processing;
`none` models an exception anywhere in it. -/
noncomputable def procFace (arr : Img) (embedder : Embedder) (cara : Box) : Option Emb :=
  (resize160 (ensureRGB (faceCrop arr cara))).bind embedder

/-- The failure `reconocer` surfaces when a capability is unavailable; it
carries the per-slot readiness flags of the 503 response body. -/
inductive RecogError
  | notReady : Bool → Bool → Bool → RecogError
deriving DecidableEq, Repr

/-- `reconocer`: the readiness check (`if None in (detector, embedder,
base_datos)`) precedes any use of the request image. -/
noncomputable def reconocer (detector : Option Detector) (embedder : Option Embedder)
    (base_datos : Option Db) (arr : Img) : Except RecogError (List Resultado) :=
  match detector, embedder, base_datos with
  | some det, some emb, some bd => Except.ok (reconocer_core det emb bd arr)
  | det, emb, bd => Except.error (RecogError.notReady det.isSome emb.isSome bd.isSome)

/-- Modelled from the spec: the pipeline as the spec describes it for channel
normalization — the whole decoded array is normalized to 3-channel RGB
before the detector is invoked.  Used only to compare against
`reconocer_core`. -/
noncomputable def reconocerSpecC5 (detector : Detector) (embedder : Embedder)
    (base_datos : Db) (arr : Img) : List Resultado :=
  reconocer_core detector embedder base_datos (ensureRGB arr)

/-- Modelled from the spec: the detections that "survive" in the spec's
sense, i.e. whose clipped crop has non-zero width and height. -/
def specSurvivors (detector : Detector) (arr : Img) : List Box :=
  (detector arr).filter fun cara =>
    decide ((faceCrop arr cara).height ≠ 0 ∧ (faceCrop arr cara).width ≠ 0)

/-- A 100 × 100 RGB test image. -/
def img100 : Img := ⟨100, 100, PixFmt.chans 3⟩

/-- A 100 × 100 grayscale (2-D) test image. -/
def imgGray : Img := ⟨100, 100, PixFmt.gray2d⟩

/-- An embedder that always fails. -/
def embNone : Embedder := fun _ => none

/-- An embedder that always returns the one-dimensional zero vector. -/
noncomputable def embZero : Embedder := fun _ => some [0]

/-- A detector that finds one face on non-RGB arrays and none on RGB ones:
it distinguishes whether it was handed the raw or the normalized array. -/
def detFmt : Detector := fun i =>
  if i.fmt = PixFmt.chans 3 then [] else [⟨0, 0, 1, 1⟩]

/-- A neutral default value for `List.getD` on result lists. -/
def resDefault : Resultado := ⟨"", (⊤ : WithTop ℝ), (0, 0, 0, 0)⟩

/-- Three detections, the middle one with zero width. -/
def threeBoxes : List Box := [⟨0, 0, 10, 10⟩, ⟨0, 0, 0, 10⟩, ⟨20, 20, 10, 10⟩]

/-- A detector that always emits `threeBoxes`. -/
def detThree : Detector := fun _ => threeBoxes

end FaceApp

namespace Cache

/-- The module state of `app.py`: the three `model_cache` slots, plus
bookkeeping — `next` supplies a fresh id to each capability instance that an
initializer constructs, and the `…Inits` fields count how many times each
slot's initializer has executed. -/
structure CState where
  det : Option ℕ
  emb : Option ℕ
  db : Option ℕ
  next : ℕ
  detInits : ℕ
  embInits : ℕ
  dbInits : ℕ
deriving DecidableEq, Repr

/-- Process start: all slots unset. -/
def start : CState := ⟨none, none, none, 0, 0, 0, 0⟩

/-- The atomic critical sections of `app.py`: the three unconditional stores
performed by the background thread `load_models`, and the three
check-then-store lazy getters; each runs under `cache_lock`. -/
inductive Ev
  | bgSetDet | bgSetDb | bgSetEmb | getDet | getEmb | getDb
deriving DecidableEq, Repr

/-- One critical section.  `load_models` assigns its slot unconditionally;
a getter constructs a new instance only when the slot is unset. -/
def stepEv (s : CState) : Ev → CState
  | .bgSetDet => { s with det := some s.next, next := s.next + 1, detInits := s.detInits + 1 }
  | .bgSetDb => { s with db := some s.next, next := s.next + 1, dbInits := s.dbInits + 1 }
  | .bgSetEmb => { s with emb := some s.next, next := s.next + 1, embInits := s.embInits + 1 }
  | .getDet =>
    match s.det with
    | none => { s with det := some s.next, next := s.next + 1, detInits := s.detInits + 1 }
    | some _ => s
  | .getEmb =>
    match s.emb with
    | none => { s with emb := some s.next, next := s.next + 1, embInits := s.embInits + 1 }
    | some _ => s
  | .getDb =>
    match s.db with
    | none => { s with db := some s.next, next := s.next + 1, dbInits := s.dbInits + 1 }
    | some _ => s

/-- Run an interleaving of critical sections. -/
def run (s : CState) (es : List Ev) : CState := es.foldl stepEv s

/-- Invariant: under getter events only, a slot is either unset with zero
initializations or set with exactly one. -/
def DetInv (s : CState) : Prop :=
  (s.det = none ∧ s.detInits = 0) ∨ (∃ v, s.det = some v ∧ s.detInits = 1)

def EmbInv (s : CState) : Prop :=
  (s.emb = none ∧ s.embInits = 0) ∨ (∃ v, s.emb = some v ∧ s.embInits = 1)

def DbInv (s : CState) : Prop :=
  (s.db = none ∧ s.dbInits = 0) ∨ (∃ v, s.db = some v ∧ s.dbInits = 1)

/-- Whether an event is one of the lazy getters. -/
def isGet : Ev → Bool
  | .getDet => true
  | .getEmb => true
  | .getDb => true
  | _ => false

end Cache

namespace FaceApp

lemma runBest_cons (umbral : ℝ) (acc : String × WithTop ℝ) (c : String × ℝ)
    (L : List (String × ℝ)) :
    runBest umbral acc (c :: L) = runBest umbral (stepCand umbral acc c) L := rfl

lemma matchDb_eq_runBest (p : Emb) (db : Db) (τ : ℝ) :
    matchDb p db τ = runBest τ ("Desconocido", (⊤ : WithTop ℝ)) (candidates p db) := by
  suffices h : ∀ (db : Db) (acc : String × WithTop ℝ),
      db.foldl
        (fun acc par =>
          par.2.foldl (fun a emb_base => stepCand τ a (par.1, dist p emb_base)) acc)
        acc = runBest τ acc (candidates p db) by
    exact h db _
  intro db
  induction db with
  | nil => intro acc; rfl
  | cons q db ih =>
    intro acc
    rw [List.foldl_cons, ih]
    show runBest τ _ _ = runBest τ acc (candidates p (q :: db))
    have hc : candidates p (q :: db)
        = (q.2.map fun e => (q.1, dist p e)) ++ candidates p db := by
      simp [candidates]
    rw [hc]
    unfold runBest
    rw [List.foldl_append]
    congr 1
    rw [List.foldl_map]

lemma stepCand_snd_le (umbral : ℝ) (acc : String × WithTop ℝ) (c : String × ℝ) :
    (stepCand umbral acc c).2 ≤ acc.2 := by
  by_cases h : (c.2 : WithTop ℝ) < acc.2 ∧ c.2 < umbral
  · simp only [stepCand, if_pos h]
    exact le_of_lt h.1
  · simp only [stepCand, if_neg h]
    exact le_refl _

/-- The running minimum only decreases, and ends below every candidate that
lies strictly below the threshold. -/
lemma runBest_le (τ : ℝ) :
    ∀ (L : List (String × ℝ)) (acc : String × WithTop ℝ),
      (runBest τ acc L).2 ≤ acc.2 ∧
        ∀ c ∈ L, c.2 < τ → (runBest τ acc L).2 ≤ (c.2 : WithTop ℝ) := by
  intro L
  induction L with
  | nil => intro acc; exact ⟨le_refl _, by simp⟩
  | cons c L ih =>
    intro acc
    rw [runBest_cons]
    refine ⟨le_trans (ih (stepCand τ acc c)).1 (stepCand_snd_le τ acc c), ?_⟩
    intro d hd hdτ
    rcases List.mem_cons.mp hd with rfl | hd
    · by_cases h : (d.2 : WithTop ℝ) < acc.2 ∧ d.2 < τ
      · have hs : (stepCand τ acc d).2 = (d.2 : WithTop ℝ) := by
          simp only [stepCand, if_pos h]
        calc (runBest τ (stepCand τ acc d) L).2
            ≤ (stepCand τ acc d).2 := (ih _).1
          _ = (d.2 : WithTop ℝ) := hs
      · have hacc : acc.2 ≤ (d.2 : WithTop ℝ) := by
          rcases not_and_or.mp h with h1 | h2
          · exact le_of_not_lt h1
          · exact absurd hdτ h2
        calc (runBest τ (stepCand τ acc d) L).2
            ≤ (stepCand τ acc d).2 := (ih _).1
          _ ≤ acc.2 := stepCand_snd_le τ acc d
          _ ≤ (d.2 : WithTop ℝ) := hacc
    · exact (ih _).2 d hd hdτ

/-- Structure of the fold's result: either no candidate ever qualified and
the accumulator is returned unchanged, or the result is the first-encountered
candidate below the threshold that is strictly smaller than the accumulator
and than every earlier qualifying candidate. -/
lemma runBest_cases (τ : ℝ) :
    ∀ (L : List (String × ℝ)) (acc : String × WithTop ℝ),
      runBest τ acc L = acc ∨
        ∃ i, ∃ h : i < L.length,
          (L.get ⟨i, h⟩).2 < τ ∧
          runBest τ acc L = ((L.get ⟨i, h⟩).1, ((L.get ⟨i, h⟩).2 : WithTop ℝ)) ∧
          ((L.get ⟨i, h⟩).2 : WithTop ℝ) < acc.2 ∧
          ∀ j, ∀ hj : j < L.length, j < i → (L.get ⟨j, hj⟩).2 < τ →
            (L.get ⟨i, h⟩).2 < (L.get ⟨j, hj⟩).2 := by
  intro L
  induction L with
  | nil => intro acc; exact Or.inl rfl
  | cons c L ih =>
    intro acc
    rw [runBest_cons]
    by_cases hcond : (c.2 : WithTop ℝ) < acc.2 ∧ c.2 < τ
    · have hs : stepCand τ acc c = (c.1, (c.2 : WithTop ℝ)) := by
        simp only [stepCand, if_pos hcond]
      rw [hs]
      rcases ih (c.1, (c.2 : WithTop ℝ)) with heq | ⟨i, h, h1, h2, h3, h4⟩
      · refine Or.inr ⟨0, Nat.succ_pos _, ?_⟩
        exact ⟨hcond.2, heq, hcond.1, fun j hj hj0 _ => absurd hj0 (Nat.not_lt_zero j)⟩
      · refine Or.inr ⟨i + 1, Nat.succ_lt_succ h, ?_⟩
        refine ⟨h1, h2, lt_trans h3 hcond.1, ?_⟩
        intro j hj hji hjτ
        cases j with
        | zero =>
          exact WithTop.coe_lt_coe.mp h3
        | succ j =>
          exact h4 j (Nat.lt_of_succ_lt_succ hj) (Nat.lt_of_succ_lt_succ hji) hjτ
    · have hs : stepCand τ acc c = acc := by
        simp only [stepCand, if_neg hcond]
      rw [hs]
      rcases ih acc with heq | ⟨i, h, h1, h2, h3, h4⟩
      · exact Or.inl heq
      · refine Or.inr ⟨i + 1, Nat.succ_lt_succ h, ?_⟩
        refine ⟨h1, h2, h3, ?_⟩
        intro j hj hji hjτ
        cases j with
        | zero =>
          have hacc : acc.2 ≤ (c.2 : WithTop ℝ) := by
            rcases not_and_or.mp hcond with hx | hx
            · exact le_of_not_lt hx
            · exact absurd hjτ hx
          exact WithTop.coe_lt_coe.mp (lt_of_lt_of_le h3 hacc)
        | succ j =>
          exact h4 j (Nat.lt_of_succ_lt_succ hj) (Nat.lt_of_succ_lt_succ hji) hjτ

lemma dist_nonneg (a b : List ℝ) : 0 ≤ dist a b := Real.sqrt_nonneg _

lemma dist_self (p : List ℝ) : dist p p = 0 := by
  have h : ((vsub p p).map fun t => t ^ 2).sum = 0 := by
    induction p with
    | nil => simp [vsub]
    | cons x t ih => simpa [vsub, List.zip_cons_cons] using ih
  unfold dist l2norm
  rw [h, Real.sqrt_zero]

lemma dist_single (a b : ℝ) : dist [a] [b] = |a - b| := by
  unfold dist l2norm vsub
  simp [Real.sqrt_sq_eq_abs]

lemma mem_candidates_of (p : Emb) {db : Db} {n : String} {es : List Emb} {e : Emb}
    (hq : (n, es) ∈ db) (he : e ∈ es) : (n, dist p e) ∈ candidates p db := by
  unfold candidates
  exact List.mem_flatMap.mpr ⟨(n, es), hq, List.mem_map.mpr ⟨e, he, rfl⟩⟩

lemma of_mem_candidates {p : Emb} {db : Db} {c : String × ℝ}
    (hc : c ∈ candidates p db) : ∃ q ∈ db, ∃ e ∈ q.2, c = (q.1, dist p e) := by
  unfold candidates at hc
  rcases List.mem_flatMap.mp hc with ⟨q, hq, hm⟩
  rcases List.mem_map.mp hm with ⟨e, he, hrfl⟩
  exact ⟨q, hq, e, he, hrfl.symm⟩

lemma candidates_nonneg (p : Emb) (db : Db) : ∀ c ∈ candidates p db, 0 ≤ c.2 := by
  intro c hc
  rcases of_mem_candidates hc with ⟨q, _, e, _, hrfl⟩
  rw [hrfl]
  exact dist_nonneg p e

/-- If the final running minimum is still infinite, no update ever happened
and the sentinel pair is returned. -/
lemma matchDb_of_top {p : Emb} {db : Db} {τ : ℝ} (h : (matchDb p db τ).2 = ⊤) :
    matchDb p db τ = ("Desconocido", (⊤ : WithTop ℝ)) := by
  rw [matchDb_eq_runBest] at h ⊢
  rcases runBest_cases τ (candidates p db) ("Desconocido", (⊤ : WithTop ℝ)) with
    heq | ⟨i, hi, _, h2, _, _⟩
  · exact heq
  · rw [h2] at h
    exact absurd h (WithTop.coe_ne_top)

/-- The match engine never produces the per-face error sentinel: a result
with infinite distance carries the label "Desconocido", not "Error". -/
lemma matchDb_ne_error (p : Emb) (db : Db) (τ : ℝ) :
    ¬((matchDb p db τ).1 = "Error" ∧ (matchDb p db τ).2 = ⊤) := by
  rintro ⟨h1, h2⟩
  have h := matchDb_of_top h2
  rw [h] at h1
  exact absurd h1 (by decide)

lemma ensureRGB_height (img : Img) : (ensureRGB img).height = img.height := by
  rcases img with ⟨hh, ww, f⟩
  cases f with
  | gray2d => rfl
  | chans c =>
    by_cases hc : c = 4 <;> simp [ensureRGB, hc]

lemma ensureRGB_width (img : Img) : (ensureRGB img).width = img.width := by
  rcases img with ⟨hh, ww, f⟩
  cases f with
  | gray2d => rfl
  | chans c =>
    by_cases hc : c = 4 <;> simp [ensureRGB, hc]

lemma resize160_eq_none {img : Img} (h : img.height = 0 ∨ img.width = 0) :
    resize160 img = none := by
  simp [resize160, h]

lemma reconocer_persona_proc (img : Img) (e : Embedder) (db : Db) (τ : ℝ) :
    reconocer_persona img e db τ =
      match (resize160 (ensureRGB img)).bind e with
      | none => ("Error", (⊤ : WithTop ℝ))
      | some emb => matchDb emb db τ := by
  cases hr : resize160 (ensureRGB img) with
  | none => simp [reconocer_persona, embedAndMatch, hr]
  | some f =>
    cases he : e f with
    | none => simp [reconocer_persona, embedAndMatch, hr, he]
    | some emb => simp [reconocer_persona, embedAndMatch, hr, he]

lemma perFace_of_proc_none {arr : Img} {e : Embedder} {cara : Box} (db : Db)
    (h : procFace arr e cara = none) :
    perFace arr e db cara =
      ⟨"Error", (⊤ : WithTop ℝ), (clipX cara, clipY cara, cara.w, cara.h)⟩ := by
  unfold procFace at h
  have hp := reconocer_persona_proc (faceCrop arr cara) e db 0.8
  rw [h] at hp
  simp only [perFace, hp]

lemma perFace_of_proc_some {arr : Img} {e : Embedder} {cara : Box} {emb : Emb} (db : Db)
    (h : procFace arr e cara = some emb) :
    perFace arr e db cara =
      ⟨(matchDb emb db 0.8).1, (matchDb emb db 0.8).2,
        (clipX cara, clipY cara, cara.w, cara.h)⟩ := by
  unfold procFace at h
  have hp := reconocer_persona_proc (faceCrop arr cara) e db 0.8
  rw [h] at hp
  simp only [perFace, hp]

lemma reconocer_core_getD (d : Detector) (e : Embedder) (db : Db) (arr : Img)
    {j : ℕ} (hj : j < (d arr).length) (rdef : Resultado) (bdef : Box) :
    (reconocer_core d e db arr).getD j rdef = perFace arr e db ((d arr).getD j bdef) := by
  unfold reconocer_core
  rw [List.getD_eq_getElem _ _ (by simpa using hj), List.getD_eq_getElem _ _ hj]
  exact List.getElem_map _

end FaceApp

namespace Cache

lemma stepEv_get_det {s : CState} {e : Ev} (hg : isGet e = true) {v : ℕ}
    (h : s.det = some v) : (stepEv s e).det = some v := by
  cases e with
  | getDet => simp [stepEv, h]
  | getEmb => cases he : s.emb <;> simp [stepEv, he, h]
  | getDb => cases hd : s.db <;> simp [stepEv, hd, h]
  | bgSetDet => simp [isGet] at hg
  | bgSetDb => simp [isGet] at hg
  | bgSetEmb => simp [isGet] at hg

lemma stepEv_get_emb {s : CState} {e : Ev} (hg : isGet e = true) {v : ℕ}
    (h : s.emb = some v) : (stepEv s e).emb = some v := by
  cases e with
  | getDet => cases hd : s.det <;> simp [stepEv, hd, h]
  | getEmb => simp [stepEv, h]
  | getDb => cases hd : s.db <;> simp [stepEv, hd, h]
  | bgSetDet => simp [isGet] at hg
  | bgSetDb => simp [isGet] at hg
  | bgSetEmb => simp [isGet] at hg

lemma stepEv_get_db {s : CState} {e : Ev} (hg : isGet e = true) {v : ℕ}
    (h : s.db = some v) : (stepEv s e).db = some v := by
  cases e with
  | getDet => cases hd : s.det <;> simp [stepEv, hd, h]
  | getEmb => cases he : s.emb <;> simp [stepEv, he, h]
  | getDb => simp [stepEv, h]
  | bgSetDet => simp [isGet] at hg
  | bgSetDb => simp [isGet] at hg
  | bgSetEmb => simp [isGet] at hg

/-- Once a slot is set, a run of lazy getters never changes it. -/
lemma run_get_det : ∀ (es : List Ev), (∀ e ∈ es, isGet e = true) →
    ∀ {s : CState} {v : ℕ}, s.det = some v → (run s es).det = some v := by
  intro es
  induction es with
  | nil => intro _ s v h; exact h
  | cons e es ih =>
    intro hg s v h
    exact ih (fun x hx => hg x (List.mem_cons_of_mem e hx))
      (stepEv_get_det (hg e (List.mem_cons_self e es)) h)

lemma run_get_emb : ∀ (es : List Ev), (∀ e ∈ es, isGet e = true) →
    ∀ {s : CState} {v : ℕ}, s.emb = some v → (run s es).emb = some v := by
  intro es
  induction es with
  | nil => intro _ s v h; exact h
  | cons e es ih =>
    intro hg s v h
    exact ih (fun x hx => hg x (List.mem_cons_of_mem e hx))
      (stepEv_get_emb (hg e (List.mem_cons_self e es)) h)

lemma run_get_db : ∀ (es : List Ev), (∀ e ∈ es, isGet e = true) →
    ∀ {s : CState} {v : ℕ}, s.db = some v → (run s es).db = some v := by
  intro es
  induction es with
  | nil => intro _ s v h; exact h
  | cons e es ih =>
    intro hg s v h
    exact ih (fun x hx => hg x (List.mem_cons_of_mem e hx))
      (stepEv_get_db (hg e (List.mem_cons_self e es)) h)

lemma stepEv_detInv {s : CState} {e : Ev} (hg : isGet e = true) (h : DetInv s) :
    DetInv (stepEv s e) := by
  cases e with
  | getDet =>
    rcases h with ⟨h1, h2⟩ | ⟨v, h1, h2⟩
    · exact Or.inr ⟨s.next, by simp [stepEv, h1, h2]⟩
    · exact Or.inr ⟨v, by simp [stepEv, h1, h2]⟩
  | getEmb =>
    cases he : s.emb with
    | none =>
      rcases h with ⟨h1, h2⟩ | ⟨v, h1, h2⟩
      · exact Or.inl (by simp [stepEv, he, h1, h2])
      · exact Or.inr ⟨v, by simp [stepEv, he, h1, h2]⟩
    | some w =>
      rcases h with ⟨h1, h2⟩ | ⟨v, h1, h2⟩
      · exact Or.inl (by simp [stepEv, he, h1, h2])
      · exact Or.inr ⟨v, by simp [stepEv, he, h1, h2]⟩
  | getDb =>
    cases hd : s.db with
    | none =>
      rcases h with ⟨h1, h2⟩ | ⟨v, h1, h2⟩
      · exact Or.inl (by simp [stepEv, hd, h1, h2])
      · exact Or.inr ⟨v, by simp [stepEv, hd, h1, h2]⟩
    | some w =>
      rcases h with ⟨h1, h2⟩ | ⟨v, h1, h2⟩
      · exact Or.inl (by simp [stepEv, hd, h1, h2])
      · exact Or.inr ⟨v, by simp [stepEv, hd, h1, h2]⟩
  | bgSetDet => simp [isGet] at hg
  | bgSetDb => simp [isGet] at hg
  | bgSetEmb => simp [isGet] at hg

lemma stepEv_embInv {s : CState} {e : Ev} (hg : isGet e = true) (h : EmbInv s) :
    EmbInv (stepEv s e) := by
  cases e with
  | getEmb =>
    rcases h with ⟨h1, h2⟩ | ⟨v, h1, h2⟩
    · exact Or.inr ⟨s.next, by simp [stepEv, h1, h2]⟩
    · exact Or.inr ⟨v, by simp [stepEv, h1, h2]⟩
  | getDet =>
    cases hd : s.det with
    | none =>
      rcases h with ⟨h1, h2⟩ | ⟨v, h1, h2⟩
      · exact Or.inl (by simp [stepEv, hd, h1, h2])
      · exact Or.inr ⟨v, by simp [stepEv, hd, h1, h2]⟩
    | some w =>
      rcases h with ⟨h1, h2⟩ | ⟨v, h1, h2⟩
      · exact Or.inl (by simp [stepEv, hd, h1, h2])
      · exact Or.inr ⟨v, by simp [stepEv, hd, h1, h2]⟩
  | getDb =>
    cases hd : s.db with
    | none =>
      rcases h with ⟨h1, h2⟩ | ⟨v, h1, h2⟩
      · exact Or.inl (by simp [stepEv, hd, h1, h2])
      · exact Or.inr ⟨v, by simp [stepEv, hd, h1, h2]⟩
    | some w =>
      rcases h with ⟨h1, h2⟩ | ⟨v, h1, h2⟩
      · exact Or.inl (by simp [stepEv, hd, h1, h2])
      · exact Or.inr ⟨v, by simp [stepEv, hd, h1, h2]⟩
  | bgSetDet => simp [isGet] at hg
  | bgSetDb => simp [isGet] at hg
  | bgSetEmb => simp [isGet] at hg

lemma stepEv_dbInv {s : CState} {e : Ev} (hg : isGet e = true) (h : DbInv s) :
    DbInv (stepEv s e) := by
  cases e with
  | getDb =>
    rcases h with ⟨h1, h2⟩ | ⟨v, h1, h2⟩
    · exact Or.inr ⟨s.next, by simp [stepEv, h1, h2]⟩
    · exact Or.inr ⟨v, by simp [stepEv, h1, h2]⟩
  | getDet =>
    cases hd : s.det with
    | none =>
      rcases h with ⟨h1, h2⟩ | ⟨v, h1, h2⟩
      · exact Or.inl (by simp [stepEv, hd, h1, h2])
      · exact Or.inr ⟨v, by simp [stepEv, hd, h1, h2]⟩
    | some w =>
      rcases h with ⟨h1, h2⟩ | ⟨v, h1, h2⟩
      · exact Or.inl (by simp [stepEv, hd, h1, h2])
      · exact Or.inr ⟨v, by simp [stepEv, hd, h1, h2]⟩
  | getEmb =>
    cases he : s.emb with
    | none =>
      rcases h with ⟨h1, h2⟩ | ⟨v, h1, h2⟩
      · exact Or.inl (by simp [stepEv, he, h1, h2])
      · exact Or.inr ⟨v, by simp [stepEv, he, h1, h2]⟩
    | some w =>
      rcases h with ⟨h1, h2⟩ | ⟨v, h1, h2⟩
      · exact Or.inl (by simp [stepEv, he, h1, h2])
      · exact Or.inr ⟨v, by simp [stepEv, he, h1, h2]⟩
  | bgSetDet => simp [isGet] at hg
  | bgSetDb => simp [isGet] at hg
  | bgSetEmb => simp [isGet] at hg

lemma run_detInv : ∀ (es : List Ev), (∀ e ∈ es, isGet e = true) →
    ∀ {s : CState}, DetInv s → DetInv (run s es) := by
  intro es
  induction es with
  | nil => intro _ s h; exact h
  | cons e es ih =>
    intro hg s h
    exact ih (fun x hx => hg x (List.mem_cons_of_mem e hx))
      (stepEv_detInv (hg e (List.mem_cons_self e es)) h)

lemma run_embInv : ∀ (es : List Ev), (∀ e ∈ es, isGet e = true) →
    ∀ {s : CState}, EmbInv s → EmbInv (run s es) := by
  intro es
  induction es with
  | nil => intro _ s h; exact h
  | cons e es ih =>
    intro hg s h
    exact ih (fun x hx => hg x (List.mem_cons_of_mem e hx))
      (stepEv_embInv (hg e (List.mem_cons_self e es)) h)

lemma run_dbInv : ∀ (es : List Ev), (∀ e ∈ es, isGet e = true) →
    ∀ {s : CState}, DbInv s → DbInv (run s es) := by
  intro es
  induction es with
  | nil => intro _ s h; exact h
  | cons e es ih =>
    intro hg s h
    exact ih (fun x hx => hg x (List.mem_cons_of_mem e hx))
      (stepEv_dbInv (hg e (List.mem_cons_self e es)) h)

end Cache

namespace FaceApp

/-- C1: for every probe embedding, threshold τ and embedding store, the
nearest-neighbour scan of `reconocer_persona` visits every reference
embedding of every identity (the flattened candidate list, in iteration
order) and updates the running best only when a distance is strictly below
both the running minimum and τ.  Hence: if no candidate distance is strictly
below τ, the sentinel `("Desconocido", float("inf"))` is returned; otherwise
the result is a candidate strictly below τ attaining the minimum among all
such candidates, and strictly smaller than every earlier qualifying
candidate — so ties go to the first-encountered candidate. -/
theorem c1_match_rule (p : Emb) (db : Db) (τ : ℝ) :
    ((∀ c ∈ candidates p db, ¬c.2 < τ) →
      matchDb p db τ = ("Desconocido", (⊤ : WithTop ℝ))) ∧
    ((∃ c ∈ candidates p db, c.2 < τ) →
      ∃ i, ∃ h : i < (candidates p db).length,
        matchDb p db τ =
          (((candidates p db).get ⟨i, h⟩).1,
            (((candidates p db).get ⟨i, h⟩).2 : WithTop ℝ)) ∧
        ((candidates p db).get ⟨i, h⟩).2 < τ ∧
        (∀ j, ∀ hj : j < (candidates p db).length,
          ((candidates p db).get ⟨j, hj⟩).2 < τ →
          ((candidates p db).get ⟨i, h⟩).2 ≤ ((candidates p db).get ⟨j, hj⟩).2) ∧
        (∀ j, ∀ hj : j < (candidates p db).length, j < i →
          ((candidates p db).get ⟨j, hj⟩).2 < τ →
          ((candidates p db).get ⟨i, h⟩).2 < ((candidates p db).get ⟨j, hj⟩).2)) := by
  constructor
  · intro hno
    rw [matchDb_eq_runBest]
    rcases runBest_cases τ (candidates p db) ("Desconocido", (⊤ : WithTop ℝ)) with
      heq | ⟨i, h, h1, _, _, _⟩
    · exact heq
    · exact absurd h1 (hno _ (List.get_mem _ _ _))
  · rintro ⟨c, hc, hcτ⟩
    rcases runBest_cases τ (candidates p db) ("Desconocido", (⊤ : WithTop ℝ)) with
      heq | ⟨i, h, h1, h2, h3, h4⟩
    · exfalso
      have hle := (runBest_le τ (candidates p db) ("Desconocido", (⊤ : WithTop ℝ))).2 c hc hcτ
      rw [heq] at hle
      exact absurd hle (not_le.mpr (WithTop.coe_lt_top c.2))
    · refine ⟨i, h, ?_, h1, ?_, h4⟩
      · rw [matchDb_eq_runBest]
        exact h2
      · intro j hj hjτ
        have hle := (runBest_le τ (candidates p db) ("Desconocido", (⊤ : WithTop ℝ))).2 _
          (List.get_mem _ _ _) hjτ
        rw [h2] at hle
        exact WithTop.coe_le_coe.mp hle

/-- Witness for `c1_match_rule`: with the store `{"bob": [[5]]}` and probe
`[0]`, the only candidate is at distance 5, not below τ = 0.8, so the scan
returns the unknown sentinel with infinite distance. -/
theorem c1_match_rule_witness :
    matchDb [(0 : ℝ)] [("bob", [[5]])] 0.8 = ("Desconocido", (⊤ : WithTop ℝ)) := by
  apply (c1_match_rule [(0 : ℝ)] [("bob", [[5]])] 0.8).1
  intro c hc
  have hcand : candidates [(0 : ℝ)] [("bob", [[5]])] = [("bob", dist [0] [5])] := by
    simp [candidates]
  rw [hcand] at hc
  have hc' : c = ("bob", dist [0] [5]) := List.mem_singleton.mp hc
  have hd : dist [(0 : ℝ)] [5] = 5 := by
    rw [dist_single]
    norm_num
  rw [hc']
  simp only [hd]
  norm_num

/-- C8: a probe embedding exactly equal to a stored reference vector (and at
distance 0 only to references of that identity) is matched, at the default
threshold 0.8, to that reference's identity with distance 0. -/
theorem c8_exact_match (p : Emb) (db : Db) (n : String) (es : List Emb)
    (hq : (n, es) ∈ db) (hp : p ∈ es)
    (huniq : ∀ q ∈ db, ∀ e ∈ q.2, dist p e = 0 → q.1 = n) :
    matchDb p db 0.8 = (n, (0 : WithTop ℝ)) := by
  have hc0 : (n, dist p p) ∈ candidates p db := mem_candidates_of p hq hp
  rw [dist_self] at hc0
  have hq0 : ((n, (0 : ℝ)) : String × ℝ).2 < 0.8 := by norm_num
  rw [matchDb_eq_runBest]
  rcases runBest_cases 0.8 (candidates p db) ("Desconocido", (⊤ : WithTop ℝ)) with
    heq | ⟨i, h, h1, h2, h3, h4⟩
  · exfalso
    have hle := (runBest_le 0.8 (candidates p db) ("Desconocido", (⊤ : WithTop ℝ))).2
      (n, 0) hc0 hq0
    rw [heq] at hle
    exact absurd hle (not_le.mpr (WithTop.coe_lt_top 0))
  · have hle := (runBest_le 0.8 (candidates p db) ("Desconocido", (⊤ : WithTop ℝ))).2
      (n, 0) hc0 hq0
    rw [h2] at hle
    have hle' : (((candidates p db).get ⟨i, h⟩).2 : WithTop ℝ) ≤ ((0 : ℝ) : WithTop ℝ) := by
      simpa using hle
    have hle0 : ((candidates p db).get ⟨i, h⟩).2 ≤ 0 := WithTop.coe_le_coe.mp hle'
    have hge0 : 0 ≤ ((candidates p db).get ⟨i, h⟩).2 :=
      candidates_nonneg p db _ (List.get_mem _ _ _)
    have h0 : ((candidates p db).get ⟨i, h⟩).2 = 0 := le_antisymm hle0 hge0
    have hname : ((candidates p db).get ⟨i, h⟩).1 = n := by
      rcases of_mem_candidates (List.get_mem (candidates p db) i h) with
        ⟨q, hqm, e, hem, heq'⟩
      have hde : dist p e = 0 := by
        have := congrArg Prod.snd heq'
        simp only at this
        rw [← this]
        exact h0
      have := huniq q hqm e hem hde
      have hfst := congrArg Prod.fst heq'
      simp only at hfst
      rw [hfst, this]
    rw [h2, hname, h0]
    norm_num

/-- Witness for `c8_exact_match`: store `{"alice": [[0]], "bob": [[2]]}`,
probe `[0]` equal to alice's reference, result `("alice", 0)`. -/
theorem c8_exact_match_witness :
    matchDb [(0 : ℝ)] [("alice", [[0]]), ("bob", [[2]])] 0.8
      = ("alice", (0 : WithTop ℝ)) := by
  apply c8_exact_match [(0 : ℝ)] _ "alice" [[0]] (by simp) (by simp)
  intro q hq e he h0
  rcases List.mem_cons.mp hq with rfl | hq'
  · rfl
  · exfalso
    have hqb : q = ("bob", [[(2 : ℝ)]]) := List.mem_singleton.mp hq'
    rw [hqb] at he
    have he2 : e = [(2 : ℝ)] := List.mem_singleton.mp he
    rw [he2, dist_single] at h0
    norm_num at h0

end FaceApp

namespace FaceApp

/-- C2 counterexample: a single detection with zero width on a 100×100 RGB
image clips to a zero-area crop, yet the pipeline emits one result for it
instead of skipping it — the output sequence is not empty. -/
theorem c2_zero_area_counterexample :
    (faceCrop img100 ⟨0, 0, 0, 5⟩).width = 0 ∧
    (reconocer_core (fun _ => [⟨0, 0, 0, 5⟩]) embNone [] img100).length = 1 := by
  constructor
  · decide
  · simp [reconocer_core]

/-- C2 (amended): a detection whose crop has zero width or height after
clipping is not skipped: no embedding is computed for it (the emitted result
is independent of the embedder capability), but a result is still emitted
for it, carrying the label "Error", distance `float("inf")` and the reported
box. -/
theorem c2_zero_area_amended (arr : Img) (cara : Box) (db : Db) (e : Embedder)
    (h : (faceCrop arr cara).height = 0 ∨ (faceCrop arr cara).width = 0) :
    perFace arr e db cara =
      ⟨"Error", (⊤ : WithTop ℝ), (clipX cara, clipY cara, cara.w, cara.h)⟩ ∧
    ∀ e' : Embedder, perFace arr e' db cara = perFace arr e db cara := by
  have hn : ∀ e' : Embedder, procFace arr e' cara = none := by
    intro e'
    unfold procFace
    have hr : resize160 (ensureRGB (faceCrop arr cara)) = none := by
      apply resize160_eq_none
      rcases h with h | h
      · exact Or.inl (by rw [ensureRGB_height, h])
      · exact Or.inr (by rw [ensureRGB_width, h])
    rw [hr]
    rfl
  refine ⟨perFace_of_proc_none db (hn e), fun e' => ?_⟩
  rw [perFace_of_proc_none db (hn e'), perFace_of_proc_none db (hn e)]

/-- Witness for `c2_zero_area_amended` at the zero-width detection
`(0, 0, 0, 5)` on a 100×100 RGB image. -/
theorem c2_zero_area_witness :
    perFace img100 embNone [] ⟨0, 0, 0, 5⟩ =
      ⟨"Error", (⊤ : WithTop ℝ),
        (clipX ⟨0, 0, 0, 5⟩, clipY ⟨0, 0, 0, 5⟩, (0 : ℤ), (5 : ℤ))⟩ ∧
    ∀ e' : Embedder,
      perFace img100 e' [] ⟨0, 0, 0, 5⟩ = perFace img100 embNone [] ⟨0, 0, 0, 5⟩ :=
  c2_zero_area_amended img100 ⟨0, 0, 0, 5⟩ [] embNone (Or.inr (by decide))

/-- C4: if any capability is unavailable when `reconocer` is called, it
fails fast before consuming the image: the result is the distinct not-ready
error carrying the per-slot readiness flags (so a caller can recognize it
and retry), it does not depend on the image at all, and it is never a
success. -/
theorem c4_not_ready (d : Option Detector) (e : Option Embedder) (s : Option Db)
    (h : d.isNone ∨ e.isNone ∨ s.isNone) (arr arr' : Img) :
    reconocer d e s arr = Except.error (RecogError.notReady d.isSome e.isSome s.isSome) ∧
    reconocer d e s arr = reconocer d e s arr' ∧
    ∀ rs : List Resultado, reconocer d e s arr ≠ Except.ok rs := by
  cases d <;> cases e <;> cases s <;>
    first
      | exact ⟨rfl, rfl, fun rs hrs => Except.noConfusion hrs⟩
      | simp [Option.isNone] at h

/-- Witness for `c4_not_ready`: detector slot unset, two different images,
the same not-ready error either way, never a success. -/
theorem c4_not_ready_witness :
    reconocer none (some embNone) (some ([] : Db)) img100
      = Except.error (RecogError.notReady false true true) ∧
    reconocer none (some embNone) (some ([] : Db)) img100
      = reconocer none (some embNone) (some ([] : Db)) imgGray ∧
    ∀ rs : List Resultado,
      reconocer none (some embNone) (some ([] : Db)) img100 ≠ Except.ok rs :=
  c4_not_ready none (some embNone) (some ([] : Db)) (Or.inl rfl) img100 imgGray

/-- C5 counterexample: the detector is invoked on the raw decoded array, not
on an RGB-normalized one.  A detector that reports a face only on non-RGB
input yields one result on a grayscale image through the pipeline as
implemented, while the spec-described normalize-first pipeline yields none. -/
theorem c5_rgb_counterexample :
    (reconocer_core detFmt embNone [] imgGray).length = 1 ∧
    (reconocerSpecC5 detFmt embNone [] imgGray).length = 0 ∧
    reconocer_core detFmt embNone [] imgGray ≠ reconocerSpecC5 detFmt embNone [] imgGray := by
  have h1 : detFmt imgGray = [⟨0, 0, 1, 1⟩] := by decide
  have h2 : detFmt (ensureRGB imgGray) = [] := by decide
  refine ⟨?_, ?_, ?_⟩
  · simp [reconocer_core, h1]
  · simp [reconocerSpecC5, reconocer_core, h2]
  · intro heq
    have hlen := congrArg List.length heq
    simp [reconocer_core, reconocerSpecC5, h1, h2] at hlen

/-- C5 (amended): a grayscale or RGBA face crop is normalized to 3-channel
RGB inside per-face processing — after detection, before resizing and
embedding: `reconocer_persona` first rewrites the crop's format to RGB
(preserving its spatial dimensions) and then runs resize → embed → match on
the normalized crop. -/
theorem c5_rgb_amended (img : Img) (e : Embedder) (db : Db) (τ : ℝ)
    (h : img.fmt = PixFmt.gray2d ∨ img.fmt = PixFmt.chans 4) :
    (ensureRGB img).fmt = PixFmt.chans 3 ∧
    (ensureRGB img).height = img.height ∧
    (ensureRGB img).width = img.width ∧
    reconocer_persona img e db τ = embedAndMatch (ensureRGB img) e db τ := by
  refine ⟨?_, ensureRGB_height img, ensureRGB_width img, rfl⟩
  rcases h with h | h <;> simp [ensureRGB, h]

/-- Witness for `c5_rgb_amended` on a 100×100 grayscale image. -/
theorem c5_rgb_witness :
    (ensureRGB imgGray).fmt = PixFmt.chans 3 ∧
    (ensureRGB imgGray).height = imgGray.height ∧
    (ensureRGB imgGray).width = imgGray.width ∧
    reconocer_persona imgGray embNone [] 0.8
      = embedAndMatch (ensureRGB imgGray) embNone [] 0.8 :=
  c5_rgb_amended imgGray embNone [] 0.8 (Or.inl rfl)

/-- C6 counterexample: the claimed clipping invariant fails for a box fully
beyond the right edge: on a 100×100 image, the box `(200, 0, 10, 10)` has
non-negative width and height but its clamped origin `x = 200` exceeds
`x2 = 100`. -/
theorem c6_clip_counterexample :
    (0 : ℤ) ≤ (⟨200, 0, 10, 10⟩ : Box).w ∧
    (0 : ℤ) ≤ (⟨200, 0, 10, 10⟩ : Box).h ∧
    ¬(clipX ⟨200, 0, 10, 10⟩ ≤ clipX2 img100 ⟨200, 0, 10, 10⟩) := by
  decide

/-- C6 (amended): for a detection box with non-negative width and height
whose origin does not exceed the image extent (`x ≤ image_width`,
`y ≤ image_height`), the clipped coordinates satisfy
`0 ≤ x ≤ x2 ≤ image_width` and `0 ≤ y ≤ y2 ≤ image_height`. -/
theorem c6_clip_amended (arr : Img) (cara : Box)
    (hw : 0 ≤ cara.w) (hh : 0 ≤ cara.h)
    (hx : cara.x ≤ (arr.width : ℤ)) (hy : cara.y ≤ (arr.height : ℤ)) :
    0 ≤ clipX cara ∧ clipX cara ≤ clipX2 arr cara ∧
    clipX2 arr cara ≤ (arr.width : ℤ) ∧
    0 ≤ clipY cara ∧ clipY cara ≤ clipY2 arr cara ∧
    clipY2 arr cara ≤ (arr.height : ℤ) := by
  have h1 : (0 : ℤ) ≤ (arr.width : ℤ) := Int.ofNat_nonneg _
  have h2 : (0 : ℤ) ≤ (arr.height : ℤ) := Int.ofNat_nonneg _
  unfold clipX clipY clipX2 clipY2
  refine ⟨le_max_left 0 cara.x, ?_, min_le_left _ _,
    le_max_left 0 cara.y, ?_, min_le_left _ _⟩
  · exact le_min (max_le h1 hx) (le_add_of_nonneg_right hw)
  · exact le_min (max_le h2 hy) (le_add_of_nonneg_right hh)

/-- Witness for `c6_clip_amended`: the partially-outside box
`(-5, -3, 10, 10)` on a 100×100 image. -/
theorem c6_clip_witness :
    0 ≤ clipX ⟨-5, -3, 10, 10⟩ ∧
    clipX ⟨-5, -3, 10, 10⟩ ≤ clipX2 img100 ⟨-5, -3, 10, 10⟩ ∧
    clipX2 img100 ⟨-5, -3, 10, 10⟩ ≤ (img100.width : ℤ) ∧
    0 ≤ clipY ⟨-5, -3, 10, 10⟩ ∧
    clipY ⟨-5, -3, 10, 10⟩ ≤ clipY2 img100 ⟨-5, -3, 10, 10⟩ ∧
    clipY2 img100 ⟨-5, -3, 10, 10⟩ ≤ (img100.height : ℤ) :=
  c6_clip_amended img100 ⟨-5, -3, 10, 10⟩ (by decide) (by decide)
    (by decide) (by decide)

end FaceApp

namespace FaceApp

/-- C7: when the detector emits N faces and per-face processing (crop,
resize or embedding) fails on exactly one of them, the pipeline still
returns exactly N results: the failing face yields the sentinel
("Error", `float("inf")`), and every other face is resolved by the match
engine on its embedding and is not the error sentinel — one bad face does
not abort the others. -/
theorem c7_per_face_isolation (d : Detector) (e : Embedder) (db : Db) (arr : Img)
    (i : ℕ) (hi : i < (d arr).length)
    (hfail : procFace arr e ((d arr).getD i ⟨0, 0, 0, 0⟩) = none)
    (hok : ∀ j, j < (d arr).length → j ≠ i →
      procFace arr e ((d arr).getD j ⟨0, 0, 0, 0⟩) ≠ none) :
    (reconocer_core d e db arr).length = (d arr).length ∧
    ((reconocer_core d e db arr).getD i resDefault).nombre = "Error" ∧
    ((reconocer_core d e db arr).getD i resDefault).distancia = (⊤ : WithTop ℝ) ∧
    ∀ j, j < (d arr).length → j ≠ i →
      ∃ emb, procFace arr e ((d arr).getD j ⟨0, 0, 0, 0⟩) = some emb ∧
        ((reconocer_core d e db arr).getD j resDefault).nombre = (matchDb emb db 0.8).1 ∧
        ((reconocer_core d e db arr).getD j resDefault).distancia = (matchDb emb db 0.8).2 ∧
        ¬(((reconocer_core d e db arr).getD j resDefault).nombre = "Error" ∧
          ((reconocer_core d e db arr).getD j resDefault).distancia = (⊤ : WithTop ℝ)) := by
  refine ⟨by simp [reconocer_core], ?_, ?_, ?_⟩
  · rw [reconocer_core_getD d e db arr hi resDefault ⟨0, 0, 0, 0⟩,
      perFace_of_proc_none db hfail]
  · rw [reconocer_core_getD d e db arr hi resDefault ⟨0, 0, 0, 0⟩,
      perFace_of_proc_none db hfail]
  · intro j hj hne
    cases hpj : procFace arr e ((d arr).getD j ⟨0, 0, 0, 0⟩) with
    | none => exact absurd hpj (hok j hj hne)
    | some emb =>
      refine ⟨emb, rfl, ?_, ?_, ?_⟩
      · rw [reconocer_core_getD d e db arr hj resDefault ⟨0, 0, 0, 0⟩,
          perFace_of_proc_some db hpj]
      · rw [reconocer_core_getD d e db arr hj resDefault ⟨0, 0, 0, 0⟩,
          perFace_of_proc_some db hpj]
      · rw [reconocer_core_getD d e db arr hj resDefault ⟨0, 0, 0, 0⟩,
          perFace_of_proc_some db hpj]
        exact matchDb_ne_error emb db 0.8

/-- Witness for `c7_per_face_isolation`: three detections on a 100×100 RGB
image, the middle one with zero width (its crop is empty, so resize fails),
an embedder that succeeds on every non-empty crop. -/
theorem c7_per_face_isolation_witness :
    (reconocer_core detThree embZero [] img100).length = (detThree img100).length ∧
    ((reconocer_core detThree embZero [] img100).getD 1 resDefault).nombre = "Error" ∧
    ((reconocer_core detThree embZero [] img100).getD 1 resDefault).distancia
      = (⊤ : WithTop ℝ) ∧
    ∀ j, j < (detThree img100).length → j ≠ 1 →
      ∃ emb, procFace img100 embZero ((detThree img100).getD j ⟨0, 0, 0, 0⟩) = some emb ∧
        ((reconocer_core detThree embZero [] img100).getD j resDefault).nombre
          = (matchDb emb [] 0.8).1 ∧
        ((reconocer_core detThree embZero [] img100).getD j resDefault).distancia
          = (matchDb emb [] 0.8).2 ∧
        ¬(((reconocer_core detThree embZero [] img100).getD j resDefault).nombre = "Error" ∧
          ((reconocer_core detThree embZero [] img100).getD j resDefault).distancia
            = (⊤ : WithTop ℝ)) := by
  apply c7_per_face_isolation detThree embZero [] img100 1 (by decide)
  · show procFace img100 embZero ((detThree img100).getD 1 ⟨0, 0, 0, 0⟩) = none
    unfold procFace
    have hr : resize160 (ensureRGB (faceCrop img100 ((detThree img100).getD 1 ⟨0, 0, 0, 0⟩)))
        = none := by decide
    rw [hr]
    rfl
  · intro j hj hne
    unfold procFace
    have hr : resize160 (ensureRGB (faceCrop img100 ((detThree img100).getD j ⟨0, 0, 0, 0⟩)))
        = some ⟨160, 160, PixFmt.chans 3⟩ := by
      have hj3 : j < 3 := hj
      rcases j with _ | _ | _ | j
      · decide
      · exact absurd rfl hne
      · decide
      · exact absurd hj3 (by omega)
    rw [hr]
    simp [embZero]

/-- C9 counterexample: with one zero-area detection the spec's surviving set
is empty, yet the pipeline returns one result — the output is not one result
per *surviving* detection. -/
theorem c9_order_counterexample :
    (specSurvivors (fun _ => [⟨3, 3, 0, 7⟩]) img100).length = 0 ∧
    (reconocer_core (fun _ => [⟨3, 3, 0, 7⟩]) embNone [] img100).length = 1 := by
  constructor
  · decide
  · simp [reconocer_core]

/-- C9 (amended): the pipeline returns exactly one result per detection — no
detection is skipped — in the detector's emission order, and zero detected
faces yield the empty sequence as a success (an `ok` value, not an error). -/
theorem c9_order_amended (d : Detector) (e : Embedder) (db : Db) (arr : Img) :
    reconocer_core d e db arr = (d arr).map (perFace arr e db) ∧
    (reconocer_core d e db arr).length = (d arr).length ∧
    (d arr = [] → reconocer (some d) (some e) (some db) arr = Except.ok []) := by
  refine ⟨rfl, by simp [reconocer_core], fun h => ?_⟩
  simp [reconocer, reconocer_core, h]

/-- Witness for `c9_order_amended`: a detector that finds no faces yields
the empty result sequence as a success. -/
theorem c9_order_witness :
    reconocer (some (fun _ => ([] : List Box))) (some embNone) (some ([] : Db)) img100
      = Except.ok [] :=
  (c9_order_amended (fun _ => []) embNone [] img100).2.2 rfl

/-- C10: for every detected face the reported bounding box is the clamped
origin together with the detector's raw width and height; consequently it
can exceed the image extent (`x + w > image_width` at a concrete input) and
differ in width from the clipped region that was actually cropped. -/
theorem c10_reported_bbox :
    (∀ (arr : Img) (e : Embedder) (db : Db) (cara : Box),
      (perFace arr e db cara).bbox = (max 0 cara.x, max 0 cara.y, cara.w, cara.h)) ∧
    (perFace img100 embNone [] ⟨50, 50, 60, 60⟩).bbox.1
        + (perFace img100 embNone [] ⟨50, 50, 60, 60⟩).bbox.2.2.1
      > (img100.width : ℤ) ∧
    ((faceCrop img100 ⟨50, 50, 60, 60⟩).width : ℤ)
      ≠ (perFace img100 embNone [] ⟨50, 50, 60, 60⟩).bbox.2.2.1 := by
  refine ⟨fun arr e db cara => rfl, ?_, ?_⟩
  · show clipX ⟨50, 50, 60, 60⟩ + (60 : ℤ) > (img100.width : ℤ)
    decide
  · show ((faceCrop img100 ⟨50, 50, 60, 60⟩).width : ℤ) ≠ (60 : ℤ)
    decide

end FaceApp

/-- C3 counterexample: the interleaving "a request thread lazily initializes
the detector slot, then the background warm-up thread stores its own
detector" runs the detector initializer twice and overwrites the
already-set slot, so callers observe two different instances. -/
theorem c3_once_counterexample :
    (Cache.run Cache.start [Cache.Ev.getDet]).det = some 0 ∧
    (Cache.run Cache.start [Cache.Ev.getDet, Cache.Ev.bgSetDet]).det = some 1 ∧
    (Cache.run Cache.start [Cache.Ev.getDet, Cache.Ev.bgSetDet]).detInits = 2 := by
  decide

/-- C3 (amended): under the lazy getters alone (no background warm-up
event), every interleaving of getter critical sections initializes each
slot at most once, and once a slot holds an instance, further getter
interleavings never change it — losers of a getter race read the winner's
instance. -/
theorem c3_once_amended (es : List Cache.Ev) (hg : ∀ e ∈ es, Cache.isGet e = true) :
    (Cache.run Cache.start es).detInits ≤ 1 ∧
    (Cache.run Cache.start es).embInits ≤ 1 ∧
    (Cache.run Cache.start es).dbInits ≤ 1 ∧
    (∀ (v : ℕ) (es2 : List Cache.Ev), (∀ e ∈ es2, Cache.isGet e = true) →
      (Cache.run Cache.start es).det = some v →
      (Cache.run (Cache.run Cache.start es) es2).det = some v) ∧
    (∀ (v : ℕ) (es2 : List Cache.Ev), (∀ e ∈ es2, Cache.isGet e = true) →
      (Cache.run Cache.start es).emb = some v →
      (Cache.run (Cache.run Cache.start es) es2).emb = some v) ∧
    (∀ (v : ℕ) (es2 : List Cache.Ev), (∀ e ∈ es2, Cache.isGet e = true) →
      (Cache.run Cache.start es).db = some v →
      (Cache.run (Cache.run Cache.start es) es2).db = some v) := by
  have hd := Cache.run_detInv es hg (Or.inl ⟨rfl, rfl⟩ : Cache.DetInv Cache.start)
  have he := Cache.run_embInv es hg (Or.inl ⟨rfl, rfl⟩ : Cache.EmbInv Cache.start)
  have hb := Cache.run_dbInv es hg (Or.inl ⟨rfl, rfl⟩ : Cache.DbInv Cache.start)
  refine ⟨?_, ?_, ?_, ?_, ?_, ?_⟩
  · rcases hd with ⟨_, h⟩ | ⟨v, _, h⟩ <;> omega
  · rcases he with ⟨_, h⟩ | ⟨v, _, h⟩ <;> omega
  · rcases hb with ⟨_, h⟩ | ⟨v, _, h⟩ <;> omega
  · intro v es2 hg2 hv
    exact Cache.run_get_det es2 hg2 hv
  · intro v es2 hg2 hv
    exact Cache.run_get_emb es2 hg2 hv
  · intro v es2 hg2 hv
    exact Cache.run_get_db es2 hg2 hv

/-- Witness for `c3_once_amended` on a concrete getter-only interleaving:
two concurrent detector getters and one embedder getter. -/
theorem c3_once_witness :
    (Cache.run Cache.start
      [Cache.Ev.getDet, Cache.Ev.getDet, Cache.Ev.getEmb]).detInits ≤ 1 ∧
    (Cache.run Cache.start
      [Cache.Ev.getDet, Cache.Ev.getDet, Cache.Ev.getEmb]).embInits ≤ 1 ∧
    (Cache.run Cache.start
      [Cache.Ev.getDet, Cache.Ev.getDet, Cache.Ev.getEmb]).dbInits ≤ 1 ∧
    (∀ (v : ℕ) (es2 : List Cache.Ev), (∀ e ∈ es2, Cache.isGet e = true) →
      (Cache.run Cache.start
        [Cache.Ev.getDet, Cache.Ev.getDet, Cache.Ev.getEmb]).det = some v →
      (Cache.run (Cache.run Cache.start
        [Cache.Ev.getDet, Cache.Ev.getDet, Cache.Ev.getEmb]) es2).det = some v) ∧
    (∀ (v : ℕ) (es2 : List Cache.Ev), (∀ e ∈ es2, Cache.isGet e = true) →
      (Cache.run Cache.start
        [Cache.Ev.getDet, Cache.Ev.getDet, Cache.Ev.getEmb]).emb = some v →
      (Cache.run (Cache.run Cache.start
        [Cache.Ev.getDet, Cache.Ev.getDet, Cache.Ev.getEmb]) es2).emb = some v) ∧
    (∀ (v : ℕ) (es2 : List Cache.Ev), (∀ e ∈ es2, Cache.isGet e = true) →
      (Cache.run Cache.start
        [Cache.Ev.getDet, Cache.Ev.getDet, Cache.Ev.getEmb]).db = some v →
      (Cache.run (Cache.run Cache.start
        [Cache.Ev.getDet, Cache.Ev.getDet, Cache.Ev.getEmb]) es2).db = some v) :=
  c3_once_amended [Cache.Ev.getDet, Cache.Ev.getDet, Cache.Ev.getEmb] (by decide)
